import Mathlib

/-!
Verification of the eframe run loop and persistence layer.

Shallow embedding of the hard core of the repository:
* `crates/eframe/src/native/run.rs` — repaint scheduling (`WinitAppWrapper`):
  the per-window due-time table `windows_next_repaint_times`, the event-result
  dispatch `handle_event_result`, the redraw drainer `check_redraw_requests`,
  and the cross-thread repaint request handler `user_event`.
* `crates/eframe/src/native/event_loop_context.rs` — the thread-local
  event-loop access guard.
* `crates/eframe/src/native/file_storage.rs` — the `FileStorage` key/value
  store with debounced background saving.

Machine integers: `Instant` and frame numbers are modelled as `Nat` (the code
uses `std::time::Instant`, totally ordered, and `u64` frame counters; no claim
exercises wrap-around). `HashMap` is modelled as an association list with
replace-on-insert; iteration order is the list order (the claims below are
insensitive to it). Side effects (control-flow directives, redraw requests,
disk writes) are made explicit in the return values.
-/

namespace RunLoop

/-- Model of `winit::window::WindowId`: opaque comparable identifier. -/
abbrev WindowId := Nat

/-- Model of `std::time::Instant`: an absolute instant, totally ordered. -/
abbrev Instant := Nat

/-- The observable state of a `winit` window used by `check_redraw_requests`:
`is_minimized` returns `Option<bool>` in winit. -/
structure Window where
  is_minimized : Option Bool
deriving DecidableEq, Repr

/-- The window lookup `self.winit_app.window(window_id)`: `none` when the
window is gone. -/
abbrev WindowEnv := WindowId → Option Window

/-- Model of `EventResult` from `winit_integration.rs`, as matched in
`handle_event_result`. -/
inductive EventResult where
  | Wait
  | RepaintNow (window_id : WindowId)
  | RepaintNext (window_id : WindowId)
  | RepaintAt (window_id : WindowId) (repaint_time : Instant)
  | Exit
deriving DecidableEq, Repr

/-- Model of `winit::event_loop::ControlFlow`, the directive handed back to the
platform event source. -/
inductive ControlFlow where
  | Wait
  | Poll
  | WaitUntil (t : Instant)
deriving DecidableEq, Repr

/-- The due-time table `windows_next_repaint_times : HashMap<WindowId, Instant>`,
as an association list with at most one entry per window. -/
abbrev RepaintTable := List (WindowId × Instant)

/-- Model of `HashMap::get`. -/
def lookupT : RepaintTable → WindowId → Option Instant
  | [], _ => none
  | e :: rest, w => if e.1 = w then some e.2 else lookupT rest w

/-- Model of `HashMap::insert`: replaces the value of an existing key, otherwise
appends. -/
def insertT (w : WindowId) (t : Instant) : RepaintTable → RepaintTable
  | [] => [(w, t)]
  | e :: rest => if e.1 = w then (w, t) :: rest else e :: insertT w t rest

/-- Model of `HashMap::remove`. -/
def removeT (w : WindowId) : RepaintTable → RepaintTable
  | [] => []
  | e :: rest => if e.1 = w then rest else e :: removeT w rest

/-- Model of `self.windows_next_repaint_times.values().min()`. -/
def minValues : RepaintTable → Option Instant
  | [] => none
  | e :: rest =>
    match minValues rest with
    | none => some e.2
    | some m => some (min e.2 m)

/-- The table update of the `EventResult::RepaintAt(window_id, repaint_time)`
branch of `handle_event_result` (run.rs lines 103-111):
`insert(window_id, get(window_id).map_or(repaint_time, |last| last.min(repaint_time)))`. -/
def repaintAtUpdate (window_id : WindowId) (repaint_time : Instant)
    (table : RepaintTable) : RepaintTable :=
  insertT window_id
    (match lookupT table window_id with
     | none => repaint_time
     | some last => min last repaint_time)
    table

/-- The state-updating match of `handle_event_result` (run.rs lines 77-117),
before the final `check_redraw_requests` call.  Returns the updated table,
control flow, and the `exit` flag.  `is_windows` is
`cfg!(target_os = "windows")`; in the Windows `RepaintNow` branch the entry is
removed and `run_ui_and_paint` runs (its own `EventResult` is not re-matched,
only error-checked, so it does not touch the table here); elsewhere the current
instant is inserted. -/
def handle_event_result_step (is_windows : Bool) (now : Instant)
    (res : EventResult) (table : RepaintTable) (cf : ControlFlow) :
    RepaintTable × ControlFlow × Bool :=
  match res with
  | .Wait => (table, .Wait, false)
  | .RepaintNow window_id =>
    if is_windows then (removeT window_id table, cf, false)
    else (insertT window_id now table, cf, false)
  | .RepaintNext window_id => (insertT window_id now table, cf, false)
  | .RepaintAt window_id repaint_time =>
    (repaintAtUpdate window_id repaint_time table, cf, false)
  | .Exit => (table, cf, true)

/-- The `UserEvent::RequestRepaint` arm of `user_event` (run.rs lines 206-242):
`current_frame_nr` is `self.winit_app.frame_nr(viewport_id)`,
`window_of_viewport` is `self.winit_app.window_id_from_viewport_id(viewport_id)`.
The request is honored (yielding `RepaintAt`) when
`current_frame_nr == frame_nr || current_frame_nr == frame_nr + 1`. -/
def user_event_request_repaint (current_frame_nr frame_nr : Nat)
    (window_of_viewport : Option WindowId) (when : Instant) : EventResult :=
  if current_frame_nr = frame_nr ∨ current_frame_nr = frame_nr + 1 then
    match window_of_viewport with
    | some window_id => .RepaintAt window_id when
    | none => .Wait
  else
    .Wait

/-- Accumulator of the `retain` loop inside `check_redraw_requests`:
the retained entries, the captured `next_repaint_time`, the event loop's
control flow, and the windows whose `request_redraw` was called. -/
structure RetainAcc where
  kept : RepaintTable
  next : Option Instant
  cf : ControlFlow
  redraws : List WindowId
deriving DecidableEq, Repr

/-- One iteration of the `retain` closure (run.rs lines 147-169): a not-yet-due
entry is kept unchanged; a due entry clears `next_repaint_time`, sets `Poll`,
and is dropped when the window is missing or minimized, kept (after
`request_redraw`) otherwise. -/
def retainStep (env : WindowEnv) (now : Instant) (acc : RetainAcc)
    (e : WindowId × Instant) : RetainAcc :=
  if now < e.2 then
    { acc with kept := acc.kept ++ [e] }
  else
    let acc' : RetainAcc := { acc with next := none, cf := .Poll }
    match env e.1 with
    | some window =>
      if window.is_minimized.getD false then acc'
      else { acc' with kept := acc'.kept ++ [e], redraws := acc'.redraws ++ [e.1] }
    | none => acc'

/-- Model of `check_redraw_requests` (run.rs lines 144-184): capture
`next_repaint_time = values().min()`, run the `retain` loop, then set
`WaitUntil(next_repaint_time)` when a next repaint time survived. -/
def check_redraw_requests (env : WindowEnv) (now : Instant)
    (table : RepaintTable) (cf : ControlFlow) : RetainAcc :=
  let acc := table.foldl (retainStep env now) ⟨[], minValues table, cf, []⟩
  match acc.next with
  | some t => { acc with cf := .WaitUntil t }
  | none => acc

/-- The predicate deciding which entries `check_redraw_requests` retains:
not yet due, or due with an existing non-minimized window. -/
def keepEntry (env : WindowEnv) (now : Instant) (e : WindowId × Instant) : Bool :=
  decide (now < e.2) ||
    match env e.1 with
    | some window => !(window.is_minimized.getD false)
    | none => false

end RunLoop

namespace EventLoopContext

/-!
Model of `event_loop_context.rs`.  The thread-local cell
`CURRENT_EVENT_LOOP : Cell<Option<*const ActiveEventLoop>>` becomes an explicit
state value `Option SourceRef`, where `SourceRef` abstracts the borrowed
`&ActiveEventLoop`.  A panicking assertion is modelled as returning `none`.
-/

/-- Abstract handle standing for a `&ActiveEventLoop` borrow. -/
abbrev SourceRef := Nat

/-- The content of the thread-local cell `CURRENT_EVENT_LOOP`. -/
abbrev GuardState := Option SourceRef

/-- Model of `EventLoopGuard::new` (event_loop_context.rs lines 24-33): asserts the cell
is empty, then stores the pointer.  Returns the new cell state, or `none` for
the assertion failure (panic). -/
def EventLoopGuard.new (event_loop : SourceRef) (cell : GuardState) :
    Option GuardState :=
  match cell with
  | some _ => none
  | none => some (some event_loop)

/-- Model of `EventLoopGuard`'s `Drop` (lines 40-42): clears the cell unconditionally. -/
def EventLoopGuard.drop (_cell : GuardState) : GuardState := none

/-- Model of `with_current_event_loop` (lines 58-74): `cell.get().map(|ptr| f(&*ptr))`. -/
def with_current_event_loop {R : Type} (f : SourceRef → R) (cell : GuardState) :
    Option R :=
  cell.map f

/-- Model of `with_event_loop_context` (lines 85-89): acquire the guard, run the body
with the updated cell, drop the guard.  Returns `none` when the guard's
assertion panics, otherwise the body's result paired with the final cell
state. -/
def with_event_loop_context {A : Type} (event_loop : SourceRef)
    (f : GuardState → A) (cell : GuardState) : Option (A × GuardState) :=
  match EventLoopGuard.new event_loop cell with
  | none => none
  | some cell1 => some (f cell1, EventLoopGuard.drop cell1)

end EventLoopContext

namespace FileStorage

/-!
Model of `file_storage.rs`.  The key/value map `HashMap<String, String>`
becomes an association list; the RON file at `ron_filepath` becomes an explicit
`Disk` value threaded through the operations.  The background save thread's
write is applied at its synchronization point: joining the handle (in `flush`
or in `Drop`), or — for a save that has simply completed — `joinSave` applied
to the pending handle.  Environmental failures (thread spawn, filesystem) are
explicit boolean parameters.
-/

/-- The in-memory map `kv : HashMap<String, String>`. -/
abbrev KV := List (String × String)

/-- Model of `HashMap::get`. -/
def lookupKV : KV → String → Option String
  | [], _ => none
  | e :: rest, k => if e.1 = k then some e.2 else lookupKV rest k

/-- Model of `HashMap::insert`: replaces the value of an existing key, otherwise
appends. -/
def insertKV (k v : String) : KV → KV
  | [] => [(k, v)]
  | e :: rest => if e.1 = k then (k, v) :: rest else e :: insertKV k v rest

/-- The state of the RON file at `ron_filepath`: absent, present but
unparseable, or a successfully serialized map (RON serialization of a string
map round-trips). -/
inductive Disk where
  | missing
  | garbage
  | content (kv : KV)
deriving DecidableEq, Repr

/-- An in-flight background save (`last_save_join_handle` plus the closure's
captured clone of the map); `create_ok` and `serialize_ok` model the
filesystem outcomes of its `save_to_disk` call: whether `File::create`
succeeds, and whether serialization plus the writer flush then succeed. -/
structure SaveTask where
  kv : KV
  create_ok : Bool
  serialize_ok : Bool
deriving DecidableEq, Repr

/-- Model of `save_to_disk` (file_storage.rs lines 162-191).  When
`File::create` fails, only a warning is logged and the prior on-disk content
stays as-is.  When it succeeds it truncates the file before serialization, so
a subsequent serialization or writer-flush failure leaves a truncated/partial
file (modelled `garbage`), not the prior content.  On full success the file
holds the serialized map.  (A `create_dir_all` failure only logs and then
surfaces as the `File::create` failure.) -/
def save_to_disk (create_ok serialize_ok : Bool) (disk : Disk) (kv : KV) :
    Disk :=
  if create_ok then
    if serialize_ok then .content kv else .garbage
  else
    disk

/-- Joining a pending save handle: the completed thread has run `save_to_disk`
on its captured map with its filesystem outcomes. -/
def joinSave : Option SaveTask → Disk → Disk
  | none, disk => disk
  | some task, disk => save_to_disk task.create_ok task.serialize_ok disk task.kv

/-- Model of `FileStorage` (file_storage.rs lines 25-30), minus the constant
`ron_filepath` (the file it names is the threaded `Disk` value). -/
structure Store where
  kv : KV
  dirty : Bool
  last_save_join_handle : Option SaveTask
deriving DecidableEq, Repr

/-- Model of `read_ron` (lines 205-226): a missing file or a parse failure yields
`none`; a well-formed file yields its map. -/
def read_ron : Disk → Option KV
  | .missing => none
  | .garbage => none
  | .content kv => some kv

/-- Model of `from_ron_filepath` (lines 55-65):
`kv = read_ron(path).unwrap_or_default()`, not dirty, no pending save. -/
def from_ron_filepath (disk : Disk) : Store :=
  { kv := (read_ron disk).getD []
    dirty := false
    last_save_join_handle := none }

/-- Model of `get_string` (lines 104-106). -/
def get_string (s : Store) (key : String) : Option String :=
  lookupKV s.kv key

/-- Model of `set_string` (lines 116-121): insert and mark dirty only when the value
differs from the current one. -/
def set_string (s : Store) (key : String) (value : String) : Store :=
  if lookupKV s.kv key ≠ some value then
    { s with kv := insertKV key value s.kv, dirty := true }
  else
    s

/-- Model of `flush` (lines 127-154): when dirty, clear the flag, clone the map, join
the previous save handle, and spawn the next save thread.  `spawn_ok` models
`thread::Builder::spawn` succeeding; on failure the handle stays empty (it was
already taken) and only a warning is logged.  `create_ok` and `serialize_ok`
are the filesystem outcomes handed to the spawned task's `save_to_disk` call.
Returns the updated store and the disk after the join. -/
def flush (spawn_ok create_ok serialize_ok : Bool) (s : Store) (disk : Disk) :
    Store × Disk :=
  if s.dirty then
    let disk1 := joinSave s.last_save_join_handle disk
    if spawn_ok then
      ({ s with dirty := false,
                last_save_join_handle := some ⟨s.kv, create_ok, serialize_ok⟩ },
        disk1)
    else
      ({ s with dirty := false, last_save_join_handle := none }, disk1)
  else
    (s, disk)

/-- Model of `Drop for FileStorage` (lines 32-43): take and join the pending save
handle, if any.  Returns the disk after the join; the store is gone. -/
def drop (s : Store) (disk : Disk) : Disk :=
  joinSave s.last_save_join_handle disk

end FileStorage

namespace RunLoop

/-- Looking up the key just inserted yields the inserted value. -/
theorem lookupT_insertT (w : WindowId) (t : Instant) (l : RepaintTable) :
    lookupT (insertT w t l) w = some t := by
  induction l with
  | nil => simp [insertT, lookupT]
  | cons e rest ih =>
    by_cases h : e.1 = w
    · simp [insertT, lookupT, h]
    · simp [insertT, lookupT, h, ih]

/-- One `retain` iteration appends the entry to the kept list exactly when
`keepEntry` holds. -/
theorem retainStep_kept (env : WindowEnv) (now : Instant) (acc : RetainAcc)
    (e : WindowId × Instant) :
    (retainStep env now acc e).kept =
      acc.kept ++ (if keepEntry env now e then [e] else []) := by
  unfold retainStep keepEntry
  by_cases h : now < e.2
  · simp [h]
  · cases henv : env e.1 with
    | none => simp [h, henv]
    | some w =>
      by_cases hm : w.is_minimized.getD false
      · simp [h, henv, hm]
      · simp [h, henv, hm]

/-- One `retain` iteration keeps `next_repaint_time` on a not-yet-due entry
and clears it on a due one. -/
theorem retainStep_next (env : WindowEnv) (now : Instant) (acc : RetainAcc)
    (e : WindowId × Instant) :
    (retainStep env now acc e).next = if now < e.2 then acc.next else none := by
  unfold retainStep
  by_cases h : now < e.2
  · simp [h]
  · cases henv : env e.1 with
    | none => simp [h, henv]
    | some w =>
      by_cases hm : w.is_minimized.getD false
      · simp [h, henv, hm]
      · simp [h, henv, hm]

/-- One `retain` iteration keeps the control flow on a not-yet-due entry and
sets `Poll` on a due one. -/
theorem retainStep_cf (env : WindowEnv) (now : Instant) (acc : RetainAcc)
    (e : WindowId × Instant) :
    (retainStep env now acc e).cf = if now < e.2 then acc.cf else .Poll := by
  unfold retainStep
  by_cases h : now < e.2
  · simp [h]
  · cases henv : env e.1 with
    | none => simp [h, henv]
    | some w =>
      by_cases hm : w.is_minimized.getD false
      · simp [h, henv, hm]
      · simp [h, henv, hm]

/-- The `retain` loop keeps exactly the entries satisfying `keepEntry`, in
order, after the accumulator's kept list. -/
theorem foldl_retain_kept (env : WindowEnv) (now : Instant) (l : RepaintTable)
    (acc : RetainAcc) :
    (l.foldl (retainStep env now) acc).kept =
      acc.kept ++ l.filter (keepEntry env now) := by
  induction l generalizing acc with
  | nil => simp
  | cons e rest ih =>
    rw [List.foldl_cons, ih, retainStep_kept, List.filter_cons]
    by_cases h : keepEntry env now e <;> simp [h]

/-- Once `next_repaint_time` is cleared, the `retain` loop never restores
it. -/
theorem foldl_retain_next_none (env : WindowEnv) (now : Instant)
    (l : RepaintTable) (acc : RetainAcc) (h : acc.next = none) :
    (l.foldl (retainStep env now) acc).next = none := by
  induction l generalizing acc with
  | nil => exact h
  | cons e rest ih =>
    rw [List.foldl_cons]
    apply ih
    rw [retainStep_next, h]
    by_cases hlt : now < e.2 <;> simp [hlt]

/-- The `retain` loop either leaves the control flow alone or sets `Poll`. -/
theorem foldl_retain_cf (env : WindowEnv) (now : Instant) (l : RepaintTable)
    (acc : RetainAcc) :
    (l.foldl (retainStep env now) acc).cf = acc.cf ∨
      (l.foldl (retainStep env now) acc).cf = .Poll := by
  induction l generalizing acc with
  | nil => exact Or.inl rfl
  | cons e rest ih =>
    rw [List.foldl_cons]
    rcases ih (retainStep env now acc e) with h | h
    · rw [h, retainStep_cf]
      by_cases hlt : now < e.2 <;> simp [hlt]
    · exact Or.inr h

/-- Once the control flow is `Poll`, the `retain` loop keeps it at `Poll`. -/
theorem foldl_retain_cf_poll (env : WindowEnv) (now : Instant)
    (l : RepaintTable) (acc : RetainAcc) (h : acc.cf = .Poll) :
    (l.foldl (retainStep env now) acc).cf = .Poll := by
  induction l generalizing acc with
  | nil => exact h
  | cons e rest ih =>
    rw [List.foldl_cons]
    apply ih
    rw [retainStep_cf, h]
    by_cases hlt : now < e.2 <;> simp [hlt]

/-- The final `WaitUntil` match of `check_redraw_requests` does not change the
kept entries. -/
theorem check_redraw_requests_kept_eq_foldl (env : WindowEnv) (now : Instant)
    (table : RepaintTable) (cf : ControlFlow) :
    (check_redraw_requests env now table cf).kept =
      (table.foldl (retainStep env now) ⟨[], minValues table, cf, []⟩).kept := by
  simp only [check_redraw_requests]
  split <;> rfl

/-- C2 (corrected): `check_redraw_requests` leaves every not-yet-due entry
(`now < t`) unchanged, and of the due entries (`t <= now`) it removes exactly
those whose window is missing or minimized; a due entry whose window exists
and is not minimized gets a redraw request and stays in the table (it is
removed later, when `RedrawRequested` is handled). -/
theorem check_redraw_requests_retain_characterization (env : WindowEnv)
    (now : Instant) (table : RepaintTable) (cf : ControlFlow) :
    (check_redraw_requests env now table cf).kept =
      table.filter (keepEntry env now) := by
  rw [check_redraw_requests_kept_eq_foldl, foldl_retain_kept]
  rfl

/-- C2 counterexample: with `now = 7`, the entry `(0, 5)` is due (`5 ≤ 7`) and
its window exists and is not minimized; the claim says `checkDue` removes it,
but the code retains it. -/
theorem check_redraw_requests_due_entry_retained :
    (check_redraw_requests (fun _ => some ⟨some false⟩) 7 [(0, 5)]
        .Wait).kept = [(0, 5)] ∧
      lookupT
        (check_redraw_requests (fun _ => some ⟨some false⟩) 7 [(0, 5)]
          .Wait).kept 0 = some 5 := by
  constructor <;> rfl

/-- C5 (corrected): when the due-time table was already empty,
`check_redraw_requests` preserves the incoming directive (in particular `Wait`
when the last event result was `Wait`); when it drained due entries so the
table ends empty, the directive is `Poll`; hence an empty resulting table
never carries a `WaitUntil` unless the incoming directive already was one. -/
theorem drained_table_no_wait_until (env : WindowEnv) (now : Instant)
    (table : RepaintTable) (cf : ControlFlow) :
    (table = [] → (check_redraw_requests env now table cf).cf = cf) ∧
      ((check_redraw_requests env now table cf).kept = [] → table ≠ [] →
        (check_redraw_requests env now table cf).cf = .Poll) ∧
      ((check_redraw_requests env now table cf).kept = [] →
        (∀ t, cf ≠ .WaitUntil t) →
        ∀ t, (check_redraw_requests env now table cf).cf ≠ .WaitUntil t) := by
  have h1 : table = [] → (check_redraw_requests env now table cf).cf = cf := by
    intro h
    subst h
    rfl
  have h2 : (check_redraw_requests env now table cf).kept = [] → table ≠ [] →
      (check_redraw_requests env now table cf).cf = .Poll := by
    intro hk hne
    cases htab : table with
    | nil => exact absurd htab hne
    | cons e rest =>
      subst htab
      rw [check_redraw_requests_retain_characterization,
        List.filter_cons] at hk
      by_cases hke : keepEntry env now e
      · simp [hke] at hk
      · have hlt : ¬now < e.2 := by
          intro hlt
          apply hke
          unfold keepEntry
          simp [hlt]
        have hnext :
            ((e :: rest).foldl (retainStep env now)
              ⟨[], minValues (e :: rest), cf, []⟩).next = none := by
          rw [List.foldl_cons]
          apply foldl_retain_next_none
          rw [retainStep_next]
          simp [hlt]
        simp only [check_redraw_requests, hnext]
        rw [List.foldl_cons]
        apply foldl_retain_cf_poll
        rw [retainStep_cf]
        simp [hlt]
  refine ⟨h1, h2, ?_⟩
  intro hk hcf t
  rcases eq_or_ne table [] with htab | htab
  · rw [h1 htab]
    exact hcf t
  · rw [h2 hk htab]
    simp

/-- C5 witness: a single due entry for a minimized window is drained, the
resulting table is empty, and the theorem's drained conjunct gives the `Poll`
directive. -/
theorem drained_table_no_wait_until_witness :
    (check_redraw_requests (fun _ => some ⟨some true⟩) 5 [(0, 3)]
        .Wait).cf = .Poll :=
  (drained_table_no_wait_until (fun _ => some ⟨some true⟩) 5 [(0, 3)]
    .Wait).2.1 (by decide) (by decide)

/-- C5 counterexample: draining the sole due entry (a minimized window) leaves
an empty table, but the directive is `Poll`, not `Wait` as the claim states. -/
theorem drained_table_directive_poll :
    (check_redraw_requests (fun _ => some ⟨some true⟩) 5 [(0, 3)]
        .Wait).kept = [] ∧
      (check_redraw_requests (fun _ => some ⟨some true⟩) 5 [(0, 3)]
        .Wait).cf = .Poll ∧
      (check_redraw_requests (fun _ => some ⟨some true⟩) 5 [(0, 3)]
        .Wait).cf ≠ .Wait := by
  refine ⟨rfl, rfl, ?_⟩
  decide

/-- C1 counterexample: with current frame `5`, a cross-thread repaint request
carrying `frame_nr = 4 = N - 1` is honored — it yields
`RepaintAt`, not `Wait`, contradicting the claim that such a request is
discarded as stale. -/
theorem user_event_prev_frame_honored :
    user_event_request_repaint 5 4 (some 0) 10 = .RepaintAt 0 10 ∧
      user_event_request_repaint 5 4 (some 0) 10 ≠ .Wait := by
  refine ⟨rfl, ?_⟩
  decide

/-- C1 (corrected): a cross-thread repaint request is honored exactly when it
carries the current frame number or the one immediately preceding it
(`current_frame_nr == frame_nr || current_frame_nr == frame_nr + 1`); any
other frame number — two or more frames old, or from the future — yields
`Wait`, and a `Wait` result produces no schedule update in
`handle_event_result`. -/
theorem user_event_request_repaint_freshness (cur fnr wid : Nat)
    (when : Instant) :
    (user_event_request_repaint cur fnr (some wid) when =
        .RepaintAt wid when ↔ (cur = fnr ∨ cur = fnr + 1)) ∧
      (∀ wopt : Option WindowId, ¬(cur = fnr ∨ cur = fnr + 1) →
        user_event_request_repaint cur fnr wopt when = .Wait) ∧
      (∀ (isw : Bool) (now : Instant) (table : RepaintTable)
        (cf : ControlFlow),
        (handle_event_result_step isw now .Wait table cf).1 = table) := by
  refine ⟨?_, ?_, ?_⟩
  · unfold user_event_request_repaint
    by_cases h : cur = fnr ∨ cur = fnr + 1
    · simp [h]
    · simp [h]
  · intro wopt h
    unfold user_event_request_repaint
    simp [h]
  · intro isw now table cf
    rfl

/-- C1 witness: with current frame `7`, a request carrying `frame_nr = 4`
(three frames old) is discarded and yields `Wait`. -/
theorem user_event_request_repaint_freshness_witness :
    user_event_request_repaint 7 4 (some 0) 3 = .Wait :=
  (user_event_request_repaint_freshness 7 4 0 3).2.1 (some 0) (by decide)

/-- C4 (confirmed): the `RepaintAt(w, t)` branch sets the due time of `w` to
the minimum of `t` and any existing entry; hence `RepaintAt(w, t1)` followed by
`RepaintAt(w, t2)` with `t1 < t2` (starting from no entry for `w`) leaves the
due time at `t1`, and an existing earlier deadline is never pushed later. -/
theorem repaintAt_due_time_min (table : RepaintTable) (w : WindowId)
    (t t1 t2 t0 : Instant) :
    (lookupT (repaintAtUpdate w t table) w =
        some (match lookupT table w with
              | none => t
              | some last => min last t)) ∧
      (lookupT table w = none → t1 < t2 →
        lookupT (repaintAtUpdate w t2 (repaintAtUpdate w t1 table)) w =
          some t1) ∧
      (lookupT table w = some t0 →
        lookupT (repaintAtUpdate w t table) w = some (min t0 t) ∧
          min t0 t ≤ t0) := by
  refine ⟨?_, ?_, ?_⟩
  · unfold repaintAtUpdate
    exact lookupT_insertT w _ table
  · intro hnone hlt
    unfold repaintAtUpdate
    rw [lookupT_insertT, hnone, lookupT_insertT]
    simp [hnone, Nat.min_eq_left (Nat.le_of_lt hlt)]
  · intro hsome
    unfold repaintAtUpdate
    rw [lookupT_insertT, hsome]
    exact ⟨rfl, Nat.min_le_left t0 t⟩

/-- C4 witness: on an empty table, `RepaintAt(0, 2)` then `RepaintAt(0, 5)`
leaves the due time at `2`. -/
theorem repaintAt_due_time_min_witness :
    lookupT (repaintAtUpdate 0 5 (repaintAtUpdate 0 2 [])) 0 = some 2 :=
  (repaintAt_due_time_min [] 0 0 2 5 0).2.1 rfl (by decide)

end RunLoop

namespace EventLoopContext

/-- C6 (confirmed): acquiring a guard while one is live on the thread fails
deterministically (the assertion in `EventLoopGuard::new`);
`with_current_event_loop` returns `None` outside any guard scope and
`Some(f(source))` inside one, and `with_event_loop_context` runs its body
inside a fresh scope and clears the cell afterwards. -/
theorem guard_discipline (α : Type) (f : SourceRef → α) (el el0 : SourceRef) :
    EventLoopGuard.new el (some el0) = none ∧
      with_current_event_loop f none = none ∧
      with_current_event_loop f (some el) = some (f el) ∧
      with_event_loop_context el (fun cell => with_current_event_loop f cell)
        none = some (some (f el), none) :=
  ⟨rfl, rfl, rfl, rfl⟩

end EventLoopContext

namespace FileStorage

/-- C3 counterexample: construct an empty store, `set("a","1")`, `flush()`
(save succeeds), then `set("a","2")` and drop the store.  The in-memory value
is `"2"`, but teardown only joins the save spawned by the flush, so the disk
ends at `"1"`: the update made after the last explicit `flush()` is not
written before destruction, contradicting the claim. -/
theorem drop_loses_post_flush_update :
    (let s1 := set_string (from_ron_filepath .missing) "a" "1"
     let p := flush true true true s1 .missing
     let s2 := set_string p.1 "a" "2"
     get_string s2 "a" = some "2" ∧
       FileStorage.drop s2 p.2 = .content [("a", "1")] ∧
       get_string (from_ron_filepath (FileStorage.drop s2 p.2)) "a" =
         some "1") := by
  refine ⟨rfl, rfl, rfl⟩

/-- C3 (corrected): teardown joins any in-flight background save, blocking
until it completes, but performs no new flush: its effect on the disk is
independent of the current in-memory map and dirty flag, with no pending
handle the disk is left untouched even when the store is dirty, and a pending
save that completes successfully leaves the snapshot captured at the last
flush — never the current in-memory map. -/
theorem drop_performs_no_flush (s : Store) (disk : Disk) (kv2 : KV)
    (d2 : Bool) (task : SaveTask) :
    FileStorage.drop s disk =
        FileStorage.drop { s with kv := kv2, dirty := d2 } disk ∧
      (s.last_save_join_handle = none → FileStorage.drop s disk = disk) ∧
      (s.last_save_join_handle = some task → task.create_ok = true →
        task.serialize_ok = true → FileStorage.drop s disk = .content task.kv) := by
  refine ⟨rfl, ?_, ?_⟩
  · intro h
    unfold drop
    rw [h]
    rfl
  · intro h h1 h2
    unfold drop
    rw [h]
    simp [joinSave, save_to_disk, h1, h2]

/-- C3 witness: a dirty store with no pending handle leaves the disk
untouched at teardown. -/
theorem drop_performs_no_flush_witness :
    FileStorage.drop ⟨[("a", "2")], true, none⟩ .missing = .missing :=
  (drop_performs_no_flush ⟨[("a", "2")], true, none⟩ .missing [] false
    ⟨[], true, true⟩).2.1 rfl

/-- C7 (confirmed): `set(k, v)` with `v` equal to the current value is a
strict no-op (the store, including map and dirty flag, is unchanged), and
`flush()` on the resulting non-dirty store spawns no background save and
changes neither store nor disk. -/
theorem set_same_value_noop_flush_noop (s : Store) (k v : String)
    (disk : Disk) (spawn_ok create_ok serialize_ok : Bool)
    (h : get_string s k = some v) (hd : s.dirty = false) :
    set_string s k v = s ∧
      flush spawn_ok create_ok serialize_ok (set_string s k v) disk =
        (s, disk) ∧
      (flush spawn_ok create_ok serialize_ok (set_string s k v)
        disk).1.last_save_join_handle = s.last_save_join_handle := by
  have hset : set_string s k v = s := by
    unfold set_string
    unfold get_string at h
    simp [h]
  have hflush : flush spawn_ok create_ok serialize_ok s disk = (s, disk) := by
    unfold flush
    simp [hd]
  refine ⟨hset, ?_, ?_⟩
  · rw [hset, hflush]
  · rw [hset, hflush]

/-- C7 witness: on a store loaded with `a ↦ 1`, `set("a","1")` is a no-op and
the subsequent flush changes nothing. -/
theorem set_same_value_noop_flush_noop_witness :
    set_string (from_ron_filepath (.content [("a", "1")])) "a" "1" =
        from_ron_filepath (.content [("a", "1")]) ∧
      flush true true true
          (set_string (from_ron_filepath (.content [("a", "1")])) "a" "1")
          .missing =
        (from_ron_filepath (.content [("a", "1")]), .missing) ∧
      (flush true true true
          (set_string (from_ron_filepath (.content [("a", "1")])) "a" "1")
          .missing).1.last_save_join_handle =
        (from_ron_filepath (.content [("a", "1")])).last_save_join_handle :=
  set_same_value_noop_flush_noop (from_ron_filepath (.content [("a", "1")]))
    "a" "1" .missing true true true (by decide) rfl

/-- C8 (confirmed): starting from a missing file, `set("a","1")`,
`set("b","2")`, `flush()` with the spawned save completing successfully, then
constructing a new store from the same path yields `get("a") = Some("1")` and
`get("b") = Some("2")`. -/
theorem persistence_round_trip :
    (let s2 := set_string (set_string (from_ron_filepath .missing) "a" "1")
       "b" "2"
     let p := flush true true true s2 .missing
     let disk2 := joinSave p.1.last_save_join_handle p.2
     get_string (from_ron_filepath disk2) "a" = some "1" ∧
       get_string (from_ron_filepath disk2) "b" = some "2") := by
  refine ⟨rfl, rfl⟩

/-- C9 (confirmed): constructing the store from a missing file or from a file
that fails to parse yields an empty, non-dirty store with no pending save,
and the store keeps operating in memory (`set` then `get` works). -/
theorem load_failure_empty_store :
    (from_ron_filepath .missing).kv = [] ∧
      (from_ron_filepath .missing).dirty = false ∧
      (from_ron_filepath .missing).last_save_join_handle = none ∧
      (from_ron_filepath .garbage).kv = [] ∧
      (from_ron_filepath .garbage).dirty = false ∧
      (from_ron_filepath .garbage).last_save_join_handle = none ∧
      get_string (set_string (from_ron_filepath .garbage) "k" "v") "k" =
        some "v" := by
  refine ⟨rfl, rfl, rfl, rfl, rfl, rfl, rfl⟩

/-- C10 (confirmed): `flush` clears the dirty flag before attempting the
spawn, so when the thread spawn fails the store ends non-dirty with no
in-flight handle; the disk receives only the previously pending save (nothing
when there was none) — the current changes are not persisted — and a later
`flush` on the resulting store is a no-op; only a new differing `set` marks
the store dirty again. -/
theorem flush_spawn_failure_not_retried (s : Store) (disk : Disk)
    (c1 c2 b1 b2 b3 : Bool) (k v : String) (h : s.dirty = true) :
    (flush false c1 c2 s disk).1.dirty = false ∧
      (flush false c1 c2 s disk).1.last_save_join_handle = none ∧
      (flush false c1 c2 s disk).1.kv = s.kv ∧
      (flush false c1 c2 s disk).2 = joinSave s.last_save_join_handle disk ∧
      flush b1 b2 b3 (flush false c1 c2 s disk).1
          (flush false c1 c2 s disk).2 =
        ((flush false c1 c2 s disk).1, (flush false c1 c2 s disk).2) ∧
      (s.last_save_join_handle = none → (flush false c1 c2 s disk).2 = disk) ∧
      (lookupKV s.kv k ≠ some v →
        (set_string (flush false c1 c2 s disk).1 k v).dirty = true) := by
  have hr : flush false c1 c2 s disk =
      ({ s with dirty := false, last_save_join_handle := none },
        joinSave s.last_save_join_handle disk) := by
    unfold flush
    simp [h]
  rw [hr]
  refine ⟨rfl, rfl, rfl, rfl, ?_, ?_, ?_⟩
  · unfold flush
    simp
  · intro hn
    rw [hn]
    rfl
  · intro hne
    unfold set_string
    simp only []
    simp [hne]

/-- C10 witness: a dirty store with no pending handle, flushed with the spawn
failing, ends non-dirty with nothing persisted, and the next flush is a
no-op. -/
theorem flush_spawn_failure_not_retried_witness :
    (flush false true true ⟨[("a", "1")], true, none⟩ .missing).1.dirty =
        false ∧
      (flush false true true ⟨[("a", "1")], true, none⟩
          .missing).1.last_save_join_handle = none ∧
      (flush false true true ⟨[("a", "1")], true, none⟩ .missing).1.kv =
        [("a", "1")] ∧
      (flush false true true ⟨[("a", "1")], true, none⟩ .missing).2 =
        joinSave none .missing ∧
      flush true true true
          (flush false true true ⟨[("a", "1")], true, none⟩ .missing).1
          (flush false true true ⟨[("a", "1")], true, none⟩ .missing).2 =
        ((flush false true true ⟨[("a", "1")], true, none⟩ .missing).1,
          (flush false true true ⟨[("a", "1")], true, none⟩ .missing).2) :=
  ⟨(flush_spawn_failure_not_retried ⟨[("a", "1")], true, none⟩ .missing true
      true true true true "a" "2" rfl).1,
    (flush_spawn_failure_not_retried ⟨[("a", "1")], true, none⟩ .missing true
      true true true true "a" "2" rfl).2.1,
    (flush_spawn_failure_not_retried ⟨[("a", "1")], true, none⟩ .missing true
      true true true true "a" "2" rfl).2.2.1,
    (flush_spawn_failure_not_retried ⟨[("a", "1")], true, none⟩ .missing true
      true true true true "a" "2" rfl).2.2.2.1,
    (flush_spawn_failure_not_retried ⟨[("a", "1")], true, none⟩ .missing true
      true true true true "a" "2" rfl).2.2.2.2.1⟩

end FileStorage
